import Mathlib

/-!
Verification of mt-dhcpstat (src/main.go), a tool reporting DHCP pool
utilisation from a Mikrotik router.

The Go source is shallowly embedded below:
  - `goSplit` models `strings.Split` for the single-character separators
    the program uses (`","`, `"-"`, `"."`).
  - `atoi` models `strconv.Atoi` (64-bit): optional sign followed by
    decimal digits; syntax error yields value 0, out-of-range input is
    clamped to the int64 bounds; the second component is the success flag
    (`err == nil` in Go).  The program discards the flag (`min, _ :=
    strconv.Atoi(...)`), which `atoiVal` models.
  - Query results are association lists (`SubPair`); a missing key reads
    as `""` exactly like a Go map lookup.
  - A Go runtime panic from out-of-range indexing (`rng[1]`,
    `minparts[3]`) is modelled as `none` / `RunResult.crashed`.
  - The router is an oracle (`Router`) giving each query's response, so
    every run of `main` after a successful connect is a function of it.
-/

namespace DhcpStat

/-- Splits a character list at every occurrence of `c`; this is the
semantics of Go `strings.Split` with a one-character separator
(`strings.Split("", sep) = [""]`, separators at the ends produce empty
fields). -/
def splitChar (c : Char) : List Char → List (List Char)
  | [] => [[]]
  | x :: xs =>
    if x = c then [] :: splitChar c xs
    else
      match splitChar c xs with
      | [] => [[x]]
      | y :: ys => (x :: y) :: ys

/-- Go `strings.Split(s, sep)` for a one-character `sep`. -/
def goSplit (s : String) (c : Char) : List String :=
  (splitChar c s.data).map (fun l => String.mk l)

/-- Is `c` an ASCII decimal digit. -/
def isDigitChar (c : Char) : Bool := 48 ≤ c.toNat && c.toNat ≤ 57

/-- Accumulating decimal parse of a digit run; any non-digit fails. -/
def parseDigitsAux : Nat → List Char → Option Nat
  | acc, [] => some acc
  | acc, ch :: cs =>
    if isDigitChar ch then parseDigitsAux (10 * acc + (ch.toNat - 48)) cs
    else none

/-- Parses a non-empty all-digit string to a natural number. -/
def parseDigits (cs : List Char) : Option Nat :=
  match cs with
  | [] => none
  | ch :: cs => parseDigitsAux 0 (ch :: cs)

/-- `math.MaxInt64`. -/
def INT64MAX : Int := 9223372036854775807

/-- `math.MinInt64`. -/
def INT64MIN : Int := -9223372036854775808

/-- Applies the sign and the int64 range clamp of `strconv.ParseInt`:
an out-of-range value is clamped and flagged as failed (`ErrRange`). -/
def clampInt (neg : Bool) (n : Nat) : Int × Bool :=
  let v : Int := if neg then -(n : Int) else (n : Int)
  if v < INT64MIN then (INT64MIN, false)
  else if INT64MAX < v then (INT64MAX, false)
  else (v, true)

/-- Digits-part of `strconv.Atoi` after the optional sign was removed. -/
def finishAtoi (neg : Bool) (ds : List Char) : Int × Bool :=
  match parseDigits ds with
  | some n => clampInt neg n
  | none => (0, false)

/-- `strconv.Atoi` on the characters of the argument. -/
def atoiChars : List Char → Int × Bool
  | [] => (0, false)
  | ch :: rest =>
    if ch = '+' then finishAtoi false rest
    else if ch = '-' then finishAtoi true rest
    else finishAtoi false (ch :: rest)

/-- Go `strconv.Atoi`: value and success flag. -/
def atoi (s : String) : Int × Bool := atoiChars s.data

/-- The value the program actually uses: `min, _ := strconv.Atoi(...)`
discards the error, keeping the returned integer (0 on syntax error). -/
def atoiVal (s : String) : Int := (atoi s).1

/-- Does a character list have the syntax `strconv.Atoi` accepts
(optional single sign, then one or more digits)?  Mirrors `atoiChars`. -/
def intSyntaxOk : List Char → Bool
  | [] => false
  | ch :: rest =>
    if ch = '+' then (parseDigits rest).isSome
    else if ch = '-' then (parseDigits rest).isSome
    else (parseDigits (ch :: rest)).isSome

/-- src/main.go:34-37 — one `low-high` range as reported by the router. -/
structure IPRange where
  Min : String
  Max : String
deriving DecidableEq

/-- src/main.go:82-87 — one comma-separated segment: `rng :=
strings.Split(p, "-"); ipr.Min = rng[0]; ipr.Max = rng[1]`.  A segment
without `-` makes `rng[1]` panic (`none`); components after `rng[1]`
are ignored. -/
def parseSegment (p : String) : Option IPRange :=
  match goSplit p '-' with
  | r0 :: r1 :: _ => some ⟨r0, r1⟩
  | _ => none

/-- src/main.go:82-88 — the loop over the comma-split segments,
appending in order and aborting (panicking) on the first bad segment. -/
def rangesParseList : List String → Option (List IPRange)
  | [] => some []
  | p :: ps =>
    match parseSegment p, rangesParseList ps with
    | some r, some rs => some (r :: rs)
    | _, _ => none

/-- Parsing of a non-empty `ranges` field value. -/
def rangesParse (s : String) : Option (List IPRange) :=
  rangesParseList (goSplit s ',')

/-- One router query result row: field name to value.  Reading an
absent key yields `""`, as a Go map lookup does. -/
def SubPair : Type := List (String × String)

/-- Go `s["key"]` on a query result row. -/
def spGet (sp : SubPair) (k : String) : String :=
  match sp.find? (fun kv => kv.1 == k) with
  | some kv => kv.2
  | none => ""

/-- src/main.go:71-90 — body of `getPoolRange` after the query
succeeded: zero rows → no ranges; empty `ranges` field on the first
row → no ranges; otherwise parse the first row's `ranges` field (rows
past the first are never read).  `none` is the `rng[1]` panic. -/
def getPoolRangeCore : List SubPair → Option (List IPRange)
  | [] => some []
  | sp :: _ =>
    if spGet sp "ranges" = "" then some []
    else rangesParse (spGet sp "ranges")

/-- src/main.go:188-195 — one iteration of the size loop:
`min, _ := strconv.Atoi(strings.Split(l.Min, ".")[3])` and likewise for
`Max`; indexing `[3]` panics (`none`) when there are fewer than four
dot-separated components. -/
def segSize (l : IPRange) : Option Int :=
  match (goSplit l.Min '.').get? 3, (goSplit l.Max '.').get? 3 with
  | some mn, some mx => some (atoiVal mx - atoiVal mn)
  | _, _ => none

/-- The size loop at src/main.go:187-195 with exact (unbounded)
integer accumulation.  Go's int64 accumulator is the `wrap64` image of
this value (lemma `sizeListAuxGo_wrap`); under the validity hypotheses
of the capacity claims every per-segment contribution lies in
[-255, 255], where no feasible input can make the two differ. -/
def sizeListAux : Int → List IPRange → Option Int
  | acc, [] => some acc
  | acc, l :: ls =>
    match segSize l with
    | some z => sizeListAux (acc + z) ls
    | none => none

/-- Exact total size of a parsed pool; the value the program stores is
`wrap64` of it (lemma `poolSizeGo_wrap`). -/
def poolSize (pool : List IPRange) : Option Int := sizeListAux 0 pool

/-- Two's-complement wrap-around of Go's 64-bit `int`: the unique
value in [-2^63, 2^63) congruent mod 2^64. -/
def wrap64 (z : Int) : Int :=
  (z + 9223372036854775808) % 18446744073709551616 - 9223372036854775808

/-- src/main.go:187-195 — `size := 0; for ... { size += max - min }`
with Go's wrapping int64 addition at every step.  (The subtraction
`max - min` itself cannot leave int64 for ranges produced by
`parseSegment`: neither side of a segment can contain a sign, so both
operands are clamped nonnegative int64 values.) -/
def sizeListAuxGo : Int → List IPRange → Option Int
  | acc, [] => some acc
  | acc, l :: ls =>
    match segSize l with
    | some z => sizeListAuxGo (wrap64 (acc + z)) ls
    | none => none

/-- The pool size the program computes, in wrapping int64 arithmetic. -/
def poolSizeGo (pool : List IPRange) : Option Int := sizeListAuxGo 0 pool

/-- Capacity derived from a raw `ranges` field value: feed a
single-row query result carrying that field through `getPoolRangeCore`
and the size loop. -/
def capacityOfRanges (s : String) : Option Int :=
  (getPoolRangeCore [[("ranges", s)]]).bind poolSize

/-- Spec-side reading (§3, §8 of the design): the numeric bound of an
address is the last octet, i.e. the last dot-separated component. -/
def specLastOctet (a : String) : Int :=
  match (goSplit a '.').getLast? with
  | some p =>
    match parseDigits p.data with
    | some n => (n : Int)
    | none => 0
  | none => 0

/-- Spec-side capacity contribution of one `low-high` segment:
`high - low` on last octets. -/
def specSegCapacity (seg : String) : Int :=
  match goSplit seg '-' with
  | [lo, hi] => specLastOctet hi - specLastOctet lo
  | _ => 0

/-- Spec-side capacity of a whole range field: 0 for `""`, otherwise
the sum over the comma-separated segments. -/
def specCapacity (s : String) : Int :=
  if s = "" then 0 else ((goSplit s ',').map specSegCapacity).sum

/-- An all-digit octet string with value at most 255. -/
def isValidOctetStr (p : String) : Bool :=
  match parseDigits p.data with
  | some n => Nat.ble n 255
  | none => false

/-- A dotted-quad address: exactly four octets, each in 0..255. -/
def isValidAddr (a : String) : Bool :=
  match goSplit a '.' with
  | [p0, p1, p2, p3] =>
    isValidOctetStr p0 && isValidOctetStr p1 && isValidOctetStr p2 && isValidOctetStr p3
  | _ => false

/-- A valid segment: exactly one `-` joining two dotted-quad addresses. -/
def isValidSegment (seg : String) : Bool :=
  match goSplit seg '-' with
  | [lo, hi] => isValidAddr lo && isValidAddr hi
  | _ => false

/-- A valid range field: empty, or comma-separated valid segments. -/
def isValidRanges (s : String) : Bool :=
  (s == "") || (goSplit s ',').all isValidSegment

/-- src/main.go:18-22 — the output record. -/
structure PoolStat where
  Interface : String
  Used : Int
  Size : Int
deriving DecidableEq

/-- The router as a response oracle: the three queries `main` issues.
`Except.error e` is a failed query (`err != nil`), carrying the error
text. -/
structure Router where
  bindings : Except String (List SubPair)
  poolRanges : String → Except String (List SubPair)
  poolUsed : String → Except String (List SubPair)

/-- src/main.go:40-56 — `getPoolUsed`: query, then collect each row's
`address` field. -/
def getPoolUsed (r : Router) (pool : String) : Except String (List String) :=
  match r.poolUsed pool with
  | Except.error e => Except.error e
  | Except.ok sps => Except.ok (sps.map (fun s => spGet s "address"))

/-- src/main.go:59-91 — `getPoolRange`: query, then `getPoolRangeCore`
on the rows (`Except.ok none` is the `rng[1]` panic). -/
def getPoolRange (r : Router) (pool : String) : Except String (Option (List IPRange)) :=
  match r.poolRanges pool with
  | Except.error e => Except.error e
  | Except.ok sps => Except.ok (getPoolRangeCore sps)

/-- One line written to standard output: the text-mode header
(src/main.go:163), a text-mode record line carrying the three arguments
of the `Printf` at src/main.go:209 (interface, used, free), or the
final JSON document (src/main.go:220). -/
inductive OutLine where
  | header : OutLine
  | record : String → Int → Int → OutLine
  | jsonOut : String → OutLine
deriving DecidableEq

/-- How a run of `main` ends, with the stdout lines emitted before the
end: normal exit with the record list built in `pools`
(src/main.go:165,212), `os.Exit(1)` after a single diagnostic on the
error stream (src/main.go:154-160,177-183,199-205 and `jserror`), or a
runtime panic from out-of-range indexing. -/
inductive RunResult where
  | finished : List OutLine → List PoolStat → RunResult
  | fatal : List OutLine → String → RunResult
  | crashed : List OutLine → RunResult
deriving DecidableEq

/-- Go map lookups used in the binding loop, src/main.go:168,171. -/
def bindingPool (pair : SubPair) : String := spGet pair "address-pool"

/-- The interface name of a binding, src/main.go:168. -/
def bindingIface (pair : SubPair) : String := spGet pair "interface"

/-- Escape of one character in Go `encoding/json` string encoding
(default encoder: HTML-sensitive characters escaped). -/
def jsonEscChar (c : Char) : String :=
  if c = '"' then "\\\""
  else if c = '\\' then "\\\\"
  else if c = '\n' then "\\n"
  else if c = '\r' then "\\r"
  else if c = '\t' then "\\t"
  else if c = '<' then "\\u003c"
  else if c = '>' then "\\u003e"
  else if c = '&' then "\\u0026"
  else if c.toNat < 32 then
    "\\u00" ++ String.mk [Char.ofNat (if c.toNat / 16 < 10 then 48 + c.toNat / 16 else 87 + c.toNat / 16)]
      ++ String.mk [Char.ofNat (if c.toNat % 16 < 10 then 48 + c.toNat % 16 else 87 + c.toNat % 16)]
  else if c.toNat = 8232 then "\\u2028"
  else if c.toNat = 8233 then "\\u2029"
  else String.mk [c]

/-- Go `encoding/json` encoding of a string value. -/
def jsonString (s : String) : String :=
  "\"" ++ String.join (s.data.map jsonEscChar) ++ "\""

/-- `json.Marshal` of one `PoolStat` (exported fields, declaration
order). -/
def marshalPoolStat (p : PoolStat) : String :=
  "\x7b\"Interface\":" ++ jsonString p.Interface ++ ",\"Used\":" ++ toString p.Used
    ++ ",\"Size\":" ++ toString p.Size ++ "\x7d"

/-- `json.Marshal` of the `pools` slice (src/main.go:216).  The slice
is declared `var pools []PoolStat` and only ever grown by `append`, so
it is the nil slice exactly when no record was appended, and
`json.Marshal` renders a nil slice as `null`, not `[]`. -/
def marshalPools : List PoolStat → String
  | [] => "null"
  | ps => "[" ++ String.intercalate "," (ps.map marshalPoolStat) ++ "]"

/-- Left-pad with spaces to width `w`: Go `%12d` / `%4d` padding. -/
def padLeft (w : Nat) (s : String) : String :=
  if w ≤ s.length then s else String.mk (List.replicate (w - s.length) ' ') ++ s

/-- The text printed for one output line: the header `Println` at
src/main.go:163 and the `Printf("%s\t%12d\t%4d\n", ...)` at
src/main.go:209. -/
def renderLine : OutLine → String
  | OutLine.header => "Interface\tUsed\tFree"
  | OutLine.record i u f => i ++ "\t" ++ padLeft 12 (toString u) ++ "\t" ++ padLeft 4 (toString f)
  | OutLine.jsonOut s => s

/-- src/main.go:166-213 — the binding loop.  `out` and `pools`
accumulate the stdout lines emitted and the records appended so far.
Each iteration: skip a binding whose `address-pool` is empty; fetch the
pool ranges (query failure is fatal, a bad segment panics); run the
size loop in wrapping int64 arithmetic (a short address panics); fetch
the usage list (query failure is fatal); in text mode print the record
line, whose Free argument `p.Size - p.Used` is again a wrapping int64
subtraction; append the record. -/
def mainLoop (js : Bool) (r : Router) :
    List SubPair → List OutLine → List PoolStat → RunResult
  | [], out, pools =>
    if js then RunResult.finished (out ++ [OutLine.jsonOut (marshalPools pools)]) pools
    else RunResult.finished out pools
  | pair :: rest, out, pools =>
    if bindingPool pair = "" then mainLoop js r rest out pools
    else
      match getPoolRange r (bindingPool pair) with
      | Except.error e =>
        RunResult.fatal out
          (if js then "Error fetching pool information for pool " ++ bindingPool pair
           else "Error fetching pool information: " ++ e)
      | Except.ok none => RunResult.crashed out
      | Except.ok (some pool) =>
        match poolSizeGo pool with
        | none => RunResult.crashed out
        | some size =>
          match getPoolUsed r (bindingPool pair) with
          | Except.error e =>
            RunResult.fatal out
              (if js then "Error fetching pool usage for pool " ++ bindingPool pair
               else "Error fetching pool usage for pool " ++ bindingPool pair ++ ": " ++ e)
          | Except.ok addrs =>
            mainLoop js r rest
              (if js then out
               else out ++ [OutLine.record (bindingIface pair) ((addrs.length : Int))
                              (wrap64 (size - (addrs.length : Int)))])
              (pools ++ [⟨bindingIface pair, (addrs.length : Int), size⟩])

/-- src/main.go:149-221 — `main` from the bindings query on (flag and
connection handling are the external collaborators of the spec): fetch
the bindings (failure is fatal before anything is printed), print the
text-mode header, run the binding loop, and in JSON mode print the
marshalled records at the end. -/
def runMain (js : Bool) (r : Router) : RunResult :=
  match r.bindings with
  | Except.error e =>
    RunResult.fatal []
      (if js then "Error fetching list of dhcp interfaces from router"
       else "Error fetching list of dhcp interfaces: " ++ e)
  | Except.ok binds =>
    mainLoop js r binds (if js then [] else [OutLine.header]) []

/-- The record one loop iteration builds for an eligible binding when
all of its steps succeed (src/main.go:167-206). -/
def recordOf (r : Router) (pair : SubPair) : Option PoolStat :=
  match getPoolRange r (bindingPool pair) with
  | Except.ok (some pool) =>
    match poolSizeGo pool with
    | some size =>
      match getPoolUsed r (bindingPool pair) with
      | Except.ok addrs => some ⟨bindingIface pair, (addrs.length : Int), size⟩
      | Except.error _ => none
    | none => none
  | _ => none

/-- The record sequence of a fully successful run: one record per
binding with a non-empty pool name, in binding order. -/
def recordsOf (r : Router) : List SubPair → Option (List PoolStat)
  | [] => some []
  | pair :: rest =>
    if bindingPool pair = "" then recordsOf r rest
    else
      match recordOf r pair, recordsOf r rest with
      | some p, some ps => some (p :: ps)
      | _, _ => none

/-- A two-binding router whose second usage lookup fails; the first
binding succeeds with capacity 10 and one leased address. -/
def cexRouter : Router where
  bindings := Except.ok
    [[("interface", "ether1"), ("address-pool", "p1")],
     [("interface", "ether2"), ("address-pool", "p2")]]
  poolRanges := fun _ => Except.ok [[("ranges", "10.0.0.10-10.0.0.20")]]
  poolUsed := fun p =>
    if p = "p1" then Except.ok [[("address", "10.0.0.11")]] else Except.error "boom"

/-- Bindings of `okRouter`: one with a pool, one with none assigned. -/
def okBinds : List SubPair :=
  [[("interface", "ether1"), ("address-pool", "p1")],
   [("interface", "ether2"), ("address-pool", "")]]

/-- A healthy one-pool router: capacity 10, one leased address, plus a
second binding with no pool assigned. -/
def okRouter : Router where
  bindings := Except.ok okBinds
  poolRanges := fun _ => Except.ok [[("ranges", "10.0.0.10-10.0.0.20")]]
  poolUsed := fun _ => Except.ok [[("address", "10.0.0.11")]]

/-- A usage response reporting the same address twice. -/
def dupUsedRows : List SubPair :=
  [[("address", "10.0.0.5")], [("address", "10.0.0.5")]]

/-- A router whose usage query reports a duplicated address. -/
def dupRouter : Router where
  bindings := Except.ok [[("interface", "ether1"), ("address-pool", "p1")]]
  poolRanges := fun _ => Except.ok [[("ranges", "10.0.0.10-10.0.0.20")]]
  poolUsed := fun _ => Except.ok dupUsedRows

/-- An over-subscribed router: capacity 2 but three leased addresses,
so the rendered Free value is negative. -/
def negRouter : Router where
  bindings := Except.ok [[("interface", "ether1"), ("address-pool", "p1")]]
  poolRanges := fun _ => Except.ok [[("ranges", "10.0.0.10-10.0.0.12")]]
  poolUsed := fun _ => Except.ok
    [[("address", "10.0.0.10")], [("address", "10.0.0.11")], [("address", "10.0.0.12")]]

/-- A router with no active DHCP bindings at all. -/
def emptyRouter : Router where
  bindings := Except.ok []
  poolRanges := fun _ => Except.ok []
  poolUsed := fun _ => Except.ok []

/-- A router whose range field carries a 19-digit last octet: the pool
size becomes -(2^63 - 1), and subtracting the two leased addresses
underflows int64, so the program prints Free = 2^63 - 1 instead of the
exact difference. -/
def ovfRouter : Router where
  bindings := Except.ok [[("interface", "ether1"), ("address-pool", "p1")]]
  poolRanges := fun _ => Except.ok [[("ranges", "0.0.0.9223372036854775807-0.0.0.0")]]
  poolUsed := fun _ => Except.ok [[("address", "a")], [("address", "b")]]

lemma spGet_single (k v : String) : spGet [(k, v)] k = v := by
  simp [spGet, List.find?]

lemma wrap64_add_left (a b : Int) : wrap64 (wrap64 a + b) = wrap64 (a + b) := by
  unfold wrap64
  omega

lemma sizeListAuxGo_wrap : ∀ (rs : List IPRange) (acc : Int),
    sizeListAuxGo (wrap64 acc) rs = (sizeListAux acc rs).map wrap64 := by
  intro rs
  induction rs with
  | nil => intro acc; rfl
  | cons l ls ih =>
    intro acc
    cases hz : segSize l with
    | none => simp [sizeListAuxGo, sizeListAux, hz]
    | some z =>
      simp only [sizeListAuxGo, sizeListAux, hz]
      rw [wrap64_add_left]
      exact ih (acc + z)

lemma poolSizeGo_wrap (rs : List IPRange) :
    poolSizeGo rs = (poolSize rs).map wrap64 := by
  have h0 : wrap64 (0 : Int) = 0 := by decide
  unfold poolSizeGo poolSize
  rw [← h0]
  exact sizeListAuxGo_wrap rs 0

lemma parseDigits_head_digit {c : Char} {cs : List Char} {n : Nat}
    (h : parseDigits (c :: cs) = some n) : isDigitChar c = true := by
  by_cases hd : isDigitChar c
  · exact hd
  · simp [parseDigits, parseDigitsAux, hd] at h

lemma atoi_digits {c : Char} {cs : List Char} {n : Nat}
    (h : parseDigits (c :: cs) = some n) (hle : n ≤ 255) :
    atoiChars (c :: cs) = ((n : Int), true) := by
  have hd := parseDigits_head_digit h
  have hc1 : c ≠ '+' := by
    intro he; rw [he] at hd; simp [isDigitChar] at hd
  have hc2 : c ≠ '-' := by
    intro he; rw [he] at hd; simp [isDigitChar] at hd
  simp only [atoiChars, if_neg hc1, if_neg hc2, finishAtoi, h, clampInt, INT64MIN, INT64MAX]
  rw [if_neg (by omega), if_neg (by omega)]
  simp

lemma validOctet_spec {p : String} (h : isValidOctetStr p = true) :
    ∃ n : Nat, parseDigits p.data = some n ∧ n ≤ 255 ∧ atoiVal p = n := by
  unfold isValidOctetStr at h
  split at h
  next n hp =>
    refine ⟨n, hp, Nat.le_of_ble_eq_true h, ?_⟩
    cases hd : p.data with
    | nil => rw [hd] at hp; simp [parseDigits] at hp
    | cons c cs =>
      rw [hd] at hp
      unfold atoiVal atoi
      rw [hd, atoi_digits hp (Nat.le_of_ble_eq_true h)]
  next => simp at h

lemma validAddr_spec {a : String} (h : isValidAddr a = true) :
    ∃ p3 n3, (goSplit a '.').get? 3 = some p3 ∧ atoiVal p3 = n3 ∧
      specLastOctet a = n3 := by
  unfold isValidAddr at h
  split at h
  next p0 p1 p2 p3 hq =>
    simp only [Bool.and_eq_true] at h
    obtain ⟨⟨⟨h0, h1⟩, h2⟩, h3⟩ := h
    obtain ⟨n3, hp3, hle3, hv3⟩ := validOctet_spec h3
    refine ⟨p3, n3, by rw [hq]; rfl, hv3, ?_⟩
    unfold specLastOctet
    rw [hq]
    simp [List.getLast?, hp3]
  next => simp at h

lemma validSegment_spec {seg : String} (h : isValidSegment seg = true) :
    ∃ lo hi, parseSegment seg = some ⟨lo, hi⟩ ∧
      segSize ⟨lo, hi⟩ = some (specSegCapacity seg) := by
  unfold isValidSegment at h
  split at h
  next lo hi hq =>
    simp only [Bool.and_eq_true] at h
    obtain ⟨hlo, hhi⟩ := h
    obtain ⟨plo, nlo, hglo, hvlo, hslo⟩ := validAddr_spec hlo
    obtain ⟨phi, nhi, hghi, hvhi, hshi⟩ := validAddr_spec hhi
    refine ⟨lo, hi, ?_, ?_⟩
    · unfold parseSegment; rw [hq]
    · unfold segSize specSegCapacity
      rw [hglo, hghi, hq]
      simp [hvlo, hvhi, hslo, hshi]
  next => simp at h

lemma rangesList_spec : ∀ segs : List String,
    (∀ seg ∈ segs, isValidSegment seg = true) →
    ∃ rs, rangesParseList segs = some rs ∧
      ∀ acc : Int, sizeListAux acc rs = some (acc + ((segs.map specSegCapacity).sum)) := by
  intro segs
  induction segs with
  | nil => exact fun _ => ⟨[], rfl, fun acc => by simp [sizeListAux]⟩
  | cons seg segs ih =>
    intro hv
    obtain ⟨lo, hi, hps, hss⟩ := validSegment_spec (hv seg (by simp))
    obtain ⟨rs, h1, h2⟩ := ih (fun s hs => hv s (by simp [hs]))
    refine ⟨⟨lo, hi⟩ :: rs, by simp [rangesParseList, hps, h1], fun acc => ?_⟩
    simp only [sizeListAux, hss, h2, List.map_cons, List.sum_cons]
    rw [add_assoc]

lemma splitChar_no_sep {c : Char} : ∀ {cs : List Char},
    (∀ x ∈ cs, x ≠ c) → splitChar c cs = [cs] := by
  intro cs
  induction cs with
  | nil => intro _; rfl
  | cons x xs ih =>
    intro h
    have hx : x ≠ c := h x (by simp)
    have hxs := ih (fun y hy => h y (by simp [hy]))
    simp [splitChar, if_neg hx, hxs]

lemma parseSegment_none_of_no_dash {seg : String} (h : '-' ∉ seg.data) :
    parseSegment seg = none := by
  unfold parseSegment goSplit
  rw [splitChar_no_sep]
  · rfl
  · intro x hx he
    rw [he] at hx
    exact h hx

lemma rangesParseList_none {segs : List String} {seg : String} (hm : seg ∈ segs)
    (hn : parseSegment seg = none) : rangesParseList segs = none := by
  induction segs with
  | nil => cases hm
  | cons p ps ih =>
    rcases List.mem_cons.mp hm with h | h
    · subst h; simp [rangesParseList, hn]
    · unfold rangesParseList
      rw [ih h]
      cases parseSegment p <;> rfl

lemma mainLoop_finished_spec (js : Bool) (r : Router) :
    ∀ (binds : List SubPair) (out0 : List OutLine) (acc0 : List PoolStat)
      (out : List OutLine) (pools : List PoolStat),
      mainLoop js r binds out0 acc0 = RunResult.finished out pools →
      ∃ news, recordsOf r binds = some news ∧ pools = acc0 ++ news ∧
        out = (if js then out0 ++ [OutLine.jsonOut (marshalPools pools)]
               else out0 ++ news.map
                 (fun p => OutLine.record p.Interface p.Used (wrap64 (p.Size - p.Used)))) := by
  intro binds
  induction binds with
  | nil =>
    intro out0 acc0 out pools h
    cases js <;> simp only [mainLoop] at h <;> simp at h <;>
      obtain ⟨h1, h2⟩ := h
    · exact ⟨[], rfl, by simp [← h2], by simp [← h1]⟩
    · exact ⟨[], rfl, by simp [← h2], by simp [← h1, ← h2]⟩
  | cons pair rest ih =>
    intro out0 acc0 out pools h
    simp only [mainLoop] at h
    split at h
    next hpn =>
      obtain ⟨news, h1, h2, h3⟩ := ih out0 acc0 out pools h
      exact ⟨news, by simp [recordsOf, hpn, h1], h2, h3⟩
    next hpn =>
      split at h
      next e heq => cases h
      next heq => cases h
      next pool heq =>
        split at h
        next hsz => cases h
        next size hsz =>
          split at h
          next e heq2 => cases h
          next addrs heq2 =>
            obtain ⟨news, h1, h2, h3⟩ := ih _ _ _ _ h
            refine ⟨⟨bindingIface pair, (addrs.length : Int), size⟩ :: news, ?_, ?_, ?_⟩
            · simp [recordsOf, hpn, recordOf, heq, hsz, heq2, h1]
            · rw [h2]; simp
            · cases js <;> simp_all

lemma mainLoop_fatal_js (r : Router) :
    ∀ (binds : List SubPair) (out0 : List OutLine) (acc0 : List PoolStat)
      (out : List OutLine) (d : String),
      mainLoop true r binds out0 acc0 = RunResult.fatal out d → out = out0 := by
  intro binds
  induction binds with
  | nil =>
    intro out0 acc0 out d h
    simp [mainLoop] at h
  | cons pair rest ih =>
    intro out0 acc0 out d h
    simp only [mainLoop] at h
    split at h
    next => exact ih _ _ _ _ h
    next =>
      split at h
      next e heq => injection h with h1 h2; exact h1.symm
      next heq => cases h
      next pool heq =>
        split at h
        next hsz => cases h
        next size hsz =>
          split at h
          next e heq2 => injection h with h1 h2; exact h1.symm
          next addrs heq2 => simpa using ih _ _ _ _ h

lemma recordOf_interface {r : Router} {pair : SubPair} {p : PoolStat}
    (h : recordOf r pair = some p) : p.Interface = bindingIface pair := by
  unfold recordOf at h
  split at h
  next pool heq =>
    split at h
    next size hsz =>
      split at h
      next addrs hu => injection h with h1; rw [← h1]
      next e hu => cases h
    next hsz => cases h
  next heq => cases h

lemma recordsOf_shape (r : Router) : ∀ (binds : List SubPair) (pools : List PoolStat),
    recordsOf r binds = some pools →
    pools.map PoolStat.Interface =
      (binds.filter (fun b => bindingPool b != "")).map bindingIface ∧
    pools.length = (binds.filter (fun b => bindingPool b != "")).length := by
  intro binds
  induction binds with
  | nil =>
    intro pools h
    simp [recordsOf] at h
    simp [← h]
  | cons pair rest ih =>
    intro pools h
    simp only [recordsOf] at h
    split at h
    next hpn =>
      obtain ⟨h1, h2⟩ := ih pools h
      have hf : (bindingPool pair != "") = false := by simp [hpn]
      simp [List.filter_cons, hf, h1, h2]
    next hpn =>
      cases hro : recordOf r pair with
      | none => rw [hro] at h; simp at h
      | some p =>
        rw [hro] at h
        cases hrs : recordsOf r rest with
        | none => rw [hrs] at h; simp at h
        | some ps =>
          rw [hrs] at h
          simp only [Option.some.injEq] at h
          obtain ⟨h1, h2⟩ := ih ps hrs
          have hf : (bindingPool pair != "") = true := by simp [hpn]
          simp [← h, List.filter_cons, hf, h1, h2, recordOf_interface hro]

/-- Claim C1: for every valid comma-separated range field, the computed
pool capacity equals the sum over all segments of (last octet of the
high address minus last octet of the low address); in particular
`10.0.0.10-10.0.0.20` yields 10 and
`10.0.0.10-10.0.0.20,10.0.0.30-10.0.0.40` yields 20. -/
theorem C1_range_capacity :
    (∀ s : String, isValidRanges s = true →
       capacityOfRanges s = some (specCapacity s)) ∧
    capacityOfRanges "10.0.0.10-10.0.0.20" = some 10 ∧
    capacityOfRanges "10.0.0.10-10.0.0.20,10.0.0.30-10.0.0.40" = some 20 := by
  refine ⟨?_, by decide, by decide⟩
  intro s hval
  by_cases hs : s = ""
  · subst hs; decide
  · have hall : ∀ seg ∈ goSplit s ',', isValidSegment seg = true := by
      unfold isValidRanges at hval
      simpa [hs] using hval
    obtain ⟨rs, h1, h2⟩ := rangesList_spec _ hall
    simp [capacityOfRanges, getPoolRangeCore, spGet_single, hs, rangesParse, h1,
      poolSize, h2 0, specCapacity]

theorem C1_range_capacity_witness :
    isValidRanges "10.0.0.5-10.0.0.9" = true ∧
    capacityOfRanges "10.0.0.5-10.0.0.9" = some (specCapacity "10.0.0.5-10.0.0.9") :=
  ⟨by decide, C1_range_capacity.1 "10.0.0.5-10.0.0.9" (by decide)⟩

/-- Claim C2, counterexample: a range field whose final octet is not
parseable as an integer does not abort the run — a capacity (20) is
produced from the malformed input, refuting the claimed FormatError. -/
theorem C2_malformed_counterexample :
    (atoi "x").2 = false ∧ capacityOfRanges "10.0.0.x-10.0.0.20" = some 20 := by
  decide

/-- Claim C2, amended: a segment that lacks the `-` separator makes
range parsing panic (index out of range), aborting the run with no
capacity produced; but a segment whose final octet is not parseable as
an integer is NOT an error — the octet contributes 0 and a capacity is
still produced. -/
theorem C2_malformed_amended :
    (∀ s : String, s ≠ "" → (∃ seg ∈ goSplit s ',', '-' ∉ seg.data) →
       getPoolRangeCore [[("ranges", s)]] = none ∧ capacityOfRanges s = none) ∧
    capacityOfRanges "10.0.0.x-10.0.0.20" = some 20 := by
  refine ⟨?_, by decide⟩
  rintro s hs ⟨seg, hmem, hnd⟩
  have hrl := rangesParseList_none hmem (parseSegment_none_of_no_dash hnd)
  constructor
  · simp [getPoolRangeCore, spGet_single, hs, rangesParse, hrl]
  · simp [capacityOfRanges, getPoolRangeCore, spGet_single, hs, rangesParse, hrl]

theorem C2_malformed_amended_witness :
    getPoolRangeCore [[("ranges", "10.0.0.1")]] = none ∧
    capacityOfRanges "10.0.0.1" = none :=
  C2_malformed_amended.1 "10.0.0.1" (by decide) ⟨"10.0.0.1", by decide, by decide⟩

/-- Claim C3, counterexample: in text mode a record line for the first
binding is already on standard output when the second binding's usage
lookup fails, refuting "zero records even when some bindings were
already processed". -/
theorem C3_partial_output_counterexample :
    runMain false cexRouter =
      RunResult.fatal [OutLine.header, OutLine.record "ether1" 1 9]
        "Error fetching pool usage for pool p2: boom" := by
  decide

/-- Claim C3, amended: in structured (JSON) mode a failed query yields
a single fatal diagnostic and zero records on standard output; in text
mode, records for bindings processed before the failure have already
been printed before the diagnostic. -/
theorem C3_fail_atomic_amended :
    ∀ (r : Router) (out : List OutLine) (d : String),
      runMain true r = RunResult.fatal out d →
      runMain true r = RunResult.fatal [] d := by
  intro r out d h
  have hout : out = [] := by
    unfold runMain at h
    split at h
    next e heq => injection h with h1 _; exact h1.symm
    next binds heq => simpa using mainLoop_fatal_js r binds _ _ _ _ h
  rw [hout] at h
  exact h

theorem C3_fail_atomic_amended_witness :
    runMain true cexRouter =
      RunResult.fatal [] "Error fetching pool usage for pool p2" :=
  C3_fail_atomic_amended cexRouter []
    "Error fetching pool usage for pool p2" (by decide)

/-- Claim C4: a finished run emits exactly one record per binding with
a non-empty pool name (none for an empty pool name), in binding order,
and the output length is at most the number of bindings. -/
theorem C4_records_per_binding :
    ∀ (js : Bool) (r : Router) (binds : List SubPair)
      (out : List OutLine) (pools : List PoolStat),
      r.bindings = Except.ok binds →
      runMain js r = RunResult.finished out pools →
      recordsOf r binds = some pools ∧
      pools.map PoolStat.Interface =
        (binds.filter (fun b => bindingPool b != "")).map bindingIface ∧
      pools.length = (binds.filter (fun b => bindingPool b != "")).length ∧
      pools.length ≤ binds.length := by
  intro js r binds out pools hb h
  unfold runMain at h
  rw [hb] at h
  simp only [] at h
  obtain ⟨news, h1, h2, h3⟩ := mainLoop_finished_spec js r binds _ [] out pools h
  have h2' : pools = news := by simpa using h2
  rw [← h2'] at h1
  obtain ⟨hm, hl⟩ := recordsOf_shape r binds pools h1
  exact ⟨h1, hm, hl, hl ▸ List.length_filter_le _ binds⟩

theorem C4_records_per_binding_witness :
    okRouter.bindings = Except.ok okBinds ∧
    recordsOf okRouter okBinds = some [⟨"ether1", 1, 10⟩] ∧
    ([⟨"ether1", 1, 10⟩] : List PoolStat).map PoolStat.Interface =
      (okBinds.filter (fun b => bindingPool b != "")).map bindingIface ∧
    ([⟨"ether1", 1, 10⟩] : List PoolStat).length =
      (okBinds.filter (fun b => bindingPool b != "")).length ∧
    ([⟨"ether1", 1, 10⟩] : List PoolStat).length ≤ okBinds.length :=
  ⟨rfl, C4_records_per_binding false okRouter okBinds
    [OutLine.header, OutLine.record "ether1" 1 9] [⟨"ether1", 1, 10⟩]
    rfl (by decide)⟩

/-- Claim C5: a pool-name lookup returning zero records, or a record
whose range-list field is empty, yields an empty range set with
capacity 0 and no error. -/
theorem C5_missing_pool_capacity_zero :
    (∀ (r : Router) (pool : String), r.poolRanges pool = Except.ok [] →
       getPoolRange r pool = Except.ok (some [])) ∧
    (∀ (sp : SubPair) (rest : List SubPair), spGet sp "ranges" = "" →
       getPoolRangeCore (sp :: rest) = some []) ∧
    poolSize [] = some 0 := by
  refine ⟨?_, ?_, rfl⟩
  · intro r pool h
    simp [getPoolRange, h, getPoolRangeCore]
  · intro sp rest h
    simp [getPoolRangeCore, h]

theorem C5_missing_pool_capacity_zero_witness :
    emptyRouter.poolRanges "guest-pool" = Except.ok [] ∧
    getPoolRange emptyRouter "guest-pool" = Except.ok (some []) ∧
    getPoolRangeCore [[("ranges", "")]] = some [] :=
  ⟨rfl, C5_missing_pool_capacity_zero.1 emptyRouter "guest-pool" rfl,
   C5_missing_pool_capacity_zero.2.1 [("ranges", "")] [] (by decide)⟩

/-- Claim C6: the usage count equals exactly the number of records in
the usage query response, duplicates counted as-is. -/
theorem C6_used_count :
    ∀ (r : Router) (pool : String) (sps : List SubPair),
      r.poolUsed pool = Except.ok sps →
      getPoolUsed r pool = Except.ok (sps.map (fun s => spGet s "address")) ∧
      (sps.map (fun s => spGet s "address")).length = sps.length := by
  intro r pool sps h
  exact ⟨by simp [getPoolUsed, h], by simp⟩

theorem C6_used_count_witness :
    getPoolUsed dupRouter "p1" = Except.ok (dupUsedRows.map (fun s => spGet s "address")) ∧
    (dupUsedRows.map (fun s => spGet s "address")).length = dupUsedRows.length :=
  C6_used_count dupRouter "p1" dupUsedRows rfl

/-- Claim C7, counterexample: `ovfRouter` finishes in text mode with a
record line whose Free argument is 2^63 - 1, yet Size - Used as exact
integer arithmetic is -(2^63) - 1 — the int64 subtraction at
src/main.go:209 wraps, refuting "Free equals size minus used as exact
integer arithmetic". -/
theorem C7_free_counterexample :
    runMain false ovfRouter =
      RunResult.finished
        [OutLine.header, OutLine.record "ether1" 2 9223372036854775807]
        [⟨"ether1", 2, -9223372036854775807⟩] ∧
    (-9223372036854775807 : Int) - 2 ≠ 9223372036854775807 := by
  decide

/-- Claim C7, amended: in text mode every emitted record line carries
Free = Size - Used computed in Go's wrapping int64 arithmetic — equal
to the exact difference whenever that difference lies within the int64
range — and is preceded by the header line Interface/Used/Free; Free
may be negative (see the witness) and a negative Free is not an
error. -/
theorem C7_free_wrapped :
    (∀ (r : Router) (out : List OutLine) (pools : List PoolStat),
       runMain false r = RunResult.finished out pools →
       out = OutLine.header ::
         pools.map (fun p => OutLine.record p.Interface p.Used (wrap64 (p.Size - p.Used)))) ∧
    (∀ z : Int, INT64MIN ≤ z → z ≤ INT64MAX → wrap64 z = z) ∧
    renderLine OutLine.header = "Interface\tUsed\tFree" := by
  refine ⟨?_, ?_, rfl⟩
  · intro r out pools h
    unfold runMain at h
    split at h
    next e heq => cases h
    next binds heq =>
      obtain ⟨news, h1, h2, h3⟩ := mainLoop_finished_spec false r binds _ [] out pools h
      have h2' : pools = news := by simpa using h2
      rw [h2']
      simpa using h3
  · intro z h1 h2
    simp only [INT64MIN] at h1
    simp only [INT64MAX] at h2
    unfold wrap64
    omega

theorem C7_free_wrapped_witness :
    runMain false negRouter =
      RunResult.finished [OutLine.header, OutLine.record "ether1" 3 (-1)]
        [⟨"ether1", 3, 2⟩] ∧
    [OutLine.header, OutLine.record "ether1" 3 (-1)] =
      OutLine.header :: (([⟨"ether1", 3, 2⟩] : List PoolStat).map
        (fun p => OutLine.record p.Interface p.Used (wrap64 (p.Size - p.Used)))) :=
  ⟨by decide, C7_free_wrapped.1 negRouter _ _ (by decide)⟩

/-- Claim C8, counterexample: the segment `a-b` contains a `-`
separator, is parsed into a range, and yet capacity computation fails
(index-out-of-range panic on the short address), refuting "completes
without error for every segment with at least one `-`". -/
theorem C8_lenient_segment_counterexample :
    '-' ∈ (String.data "a-b") ∧
    parseSegment "a-b" = some ⟨"a", "b"⟩ ∧
    capacityOfRanges "a-b" = none := by
  decide

/-- Claim C8, amended: a segment with at least one `-` parses with
components after the second silently ignored; when both sides have at
least four dot-separated components, the size computation completes,
using the fourth component of each side; and a final octet that is not
a syntactically valid integer contributes 0 to the bound instead of
failing. -/
theorem C8_lenient_segment_amended :
    (∀ (seg c0 c1 : String) (tl : List String),
       goSplit seg '-' = c0 :: c1 :: tl → parseSegment seg = some ⟨c0, c1⟩) ∧
    (∀ (lo hi p3lo p3hi : String),
       (goSplit lo '.').get? 3 = some p3lo →
       (goSplit hi '.').get? 3 = some p3hi →
       segSize ⟨lo, hi⟩ = some (atoiVal p3hi - atoiVal p3lo)) ∧
    (∀ p : String, intSyntaxOk p.data = false → atoiVal p = 0) := by
  refine ⟨?_, ?_, ?_⟩
  · intro seg c0 c1 tl h
    unfold parseSegment
    rw [h]
  · intro lo hi p3lo p3hi h1 h2
    unfold segSize
    rw [h1, h2]
  · intro p h
    cases hd : p.data with
    | nil => simp [atoiVal, atoi, hd, atoiChars]
    | cons c cs =>
      rw [hd] at h
      simp only [intSyntaxOk] at h
      simp only [atoiVal, atoi, hd, atoiChars]
      by_cases h1 : c = '+'
      · rw [if_pos h1] at h ⊢
        cases hpd : parseDigits cs with
        | none => simp [finishAtoi, hpd]
        | some n => rw [hpd] at h; simp at h
      · rw [if_neg h1] at h ⊢
        by_cases h2 : c = '-'
        · rw [if_pos h2] at h ⊢
          cases hpd : parseDigits cs with
          | none => simp [finishAtoi, hpd]
          | some n => rw [hpd] at h; simp at h
        · rw [if_neg h2] at h ⊢
          cases hpd : parseDigits (c :: cs) with
          | none => simp [finishAtoi, hpd]
          | some n => rw [hpd] at h; simp at h

theorem C8_lenient_segment_amended_witness :
    parseSegment "10.0.0.1-10.0.0.5-zzz" = some ⟨"10.0.0.1", "10.0.0.5"⟩ ∧
    segSize ⟨"10.0.0.x", "10.0.0.20"⟩ = some (atoiVal "20" - atoiVal "x") ∧
    atoiVal "x" = 0 :=
  ⟨C8_lenient_segment_amended.1 "10.0.0.1-10.0.0.5-zzz" "10.0.0.1" "10.0.0.5"
     ["zzz"] (by decide),
   C8_lenient_segment_amended.2.1 "10.0.0.x" "10.0.0.20" "x" "20"
     (by decide) (by decide),
   C8_lenient_segment_amended.2.2 "x" (by decide)⟩

/-- Claim C9: a pool-name lookup returning several records uses only
the first record's range-list field — the result (and hence the
capacity) is the same as if the first record were the only one. -/
theorem C9_first_record_only :
    ∀ (sp : SubPair) (rest : List SubPair),
      getPoolRangeCore (sp :: rest) = getPoolRangeCore [sp] ∧
      (getPoolRangeCore (sp :: rest)).bind poolSize =
        (getPoolRangeCore [sp]).bind poolSize := by
  intro sp rest
  exact ⟨rfl, rfl⟩

/-- Claim C10: in structured (JSON) mode, a run that appends no record
serializes the nil slice, so the output is the JSON literal null
rather than an empty list. -/
theorem C10_json_null :
    marshalPools [] = "null" ∧
    (∀ (r : Router) (out : List OutLine),
       runMain true r = RunResult.finished out [] →
       out = [OutLine.jsonOut "null"]) := by
  refine ⟨rfl, ?_⟩
  intro r out h
  unfold runMain at h
  split at h
  next e heq => cases h
  next binds heq =>
    obtain ⟨news, h1, h2, h3⟩ := mainLoop_finished_spec true r binds _ [] out [] h
    have hn : news = [] := by simpa using h2.symm
    rw [hn] at h3
    simpa [marshalPools] using h3

theorem C10_json_null_witness :
    runMain true emptyRouter = RunResult.finished [OutLine.jsonOut "null"] [] ∧
    [OutLine.jsonOut "null"] = [OutLine.jsonOut "null"] :=
  ⟨by decide, C10_json_null.2 emptyRouter [OutLine.jsonOut "null"] (by decide)⟩

end DhcpStat
